import Mathlib

/-!
Verification of the output-rendering layer of the dartisan-ai-webscraper
backend (`src/backend/app/services/output_service.py` and the download
endpoint of `src/backend/app/api/endpoints/scrape.py`), as a shallow
embedding in Lean 4.

JSON-like values produced by the LLM step are modelled by `PyVal`
(Python strings, ints, booleans, `None`, dicts with insertion-ordered
string keys, and lists).  Python's `str()` conversion is modelled by
`pyStr` / `pyRepr` (string escaping inside `repr` of a string is not
modelled; all values appearing in the development are plain).  Excel
worksheets are modelled as lists of placed cells; every value the
service writes to a cell is a string.  The output directory is modelled
as a list of (filename, mtime) entries, and exceptions raised while
sweeping it by an explicit failure oracle.
-/

namespace WebScraper

/-- A Python/JSON-like value, the shape of the data handed to
`OutputService` (see §3 "ExtractedData" of the design). -/
inductive PyVal where
  | str (s : String)
  | int (n : Int)
  | bool (b : Bool)
  | none
  | dict (entries : List (String × PyVal))
  | list (items : List PyVal)
deriving Repr, Inhabited

/-- A single-quote character, used by Python `repr` of strings and dict keys. -/
def sq : String := String.singleton (Char.ofNat 39)

mutual
/-- Python `repr` of a value (string escaping not modelled). -/
def pyRepr : PyVal → String
  | .str s => sq ++ s ++ sq
  | .int n => toString n
  | .bool b => if b then "True" else "False"
  | .none => "None"
  | .dict es => "\x7b" ++ reprEntries es ++ "\x7d"
  | .list its => "[" ++ reprItems its ++ "]"

/-- Comma-separated `repr` of dict entries, as Python prints them. -/
def reprEntries : List (String × PyVal) → String
  | [] => ""
  | [(k, v)] => sq ++ k ++ sq ++ ": " ++ pyRepr v
  | (k, v) :: rest => sq ++ k ++ sq ++ ": " ++ pyRepr v ++ ", " ++ reprEntries rest

/-- Comma-separated `repr` of list items, as Python prints them. -/
def reprItems : List PyVal → String
  | [] => ""
  | [v] => pyRepr v
  | v :: rest => pyRepr v ++ ", " ++ reprItems rest
end

/-- Python `str()`: identical to `repr` except on strings. -/
def pyStr : PyVal → String
  | .str s => s
  | v => pyRepr v

/-- Python `str.title()`: uppercase each letter that follows a
non-letter, lowercase every other letter. -/
def pyTitle (s : String) : String :=
  String.mk (s.data.foldl
    (fun (acc : List Char × Bool) c =>
      if c.isAlpha then
        (acc.1 ++ [if acc.2 then c.toLower else c.toUpper], true)
      else
        (acc.1 ++ [c], false))
    ([], false)).1

/-- True for `dict` values: models `isinstance(item, dict)`. -/
def isDict : PyVal → Bool
  | .dict _ => true
  | _ => false

/-- Models `isinstance(value, list) and len(value) > 0 and
all(isinstance(item, dict) for item in value)` — the TableCandidate
test used by `_is_tabular_data`, `_dict_to_table_data` and
`_add_dict_to_excel`. -/
def isTableList : PyVal → Bool
  | .list items => items.length > 0 && items.all isDict
  | _ => false

/-- `list(d.keys())` for a dict value (keys in insertion order). -/
def pyKeys : PyVal → List String
  | .dict es => es.map Prod.fst
  | _ => []

/-- Python `d.get(k, '')` for a dict value: first entry with the key,
else the empty string (keys are unique in a Python dict). -/
def itemGet (item : PyVal) (k : String) : PyVal :=
  match item with
  | .dict es =>
    match es.find? (fun kv => kv.1 == k) with
    | some kv => kv.2
    | Option.none => .str ""
  | _ => .str ""

/-- One table row of `_dict_to_table_data`:
`[str(item.get(header, '')) for header in headers]`. -/
def rowOf (headers : List String) (item : PyVal) : List String :=
  headers.map fun h => pyStr (itemGet item h)

/-- `OutputService._is_tabular_data`: the dict has at least one
TableCandidate value. -/
def is_tabular_data (data : List (String × PyVal)) : Bool :=
  data.any fun kv => isTableList kv.2

/-- The grid built from one TableCandidate value: header row = keys of
the first element, then one row per element (the `headers`/`row` block
of `_dict_to_table_data`). -/
def tableGridOf : PyVal → List (List String)
  | .list (e :: tl) => pyKeys e :: (e :: tl).map (rowOf (pyKeys e))
  | _ => []

/-- `OutputService._dict_to_table_data`: scan the dict entries in
order; the first value that is a non-empty list of dicts becomes the
grid and the loop breaks; if none qualifies the result is empty. -/
def dict_to_table_data : List (String × PyVal) → List (List String)
  | [] => []
  | (_, v) :: rest =>
    if isTableList v then tableGridOf v else dict_to_table_data rest

/-- `'  ' * indent`, the indentation prefix of the text renderer. -/
def indentStr (n : Nat) : String :=
  String.join (List.replicate n "  ")

mutual
/-- The lines one `(key, value)` entry contributes in
`_format_dict_for_text`: a dict value gets an uppercased `KEY:` label,
its entries at `indent+1`, then a blank line; a list value gets an
uppercased `KEY:` label, its numbered elements, then a blank line; any
other value prints as `key: value` with the key unchanged. -/
def fmtEntry : String → PyVal → Nat → List String
  | k, .dict es, ind =>
    (indentStr ind ++ k.toUpper ++ ":") :: (format_dict_for_text es (ind + 1) ++ [""])
  | k, .list items, ind =>
    (indentStr ind ++ k.toUpper ++ ":") :: (formatListItems items ind 1 ++ [""])
  | k, v, ind => [indentStr ind ++ k ++ ": " ++ pyStr v]

/-- `OutputService._format_dict_for_text`: one pass over the dict
entries in order, each contributing its `fmtEntry` block. -/
def format_dict_for_text : List (String × PyVal) → Nat → List String
  | [], _ => []
  | (k, v) :: rest, ind => fmtEntry k v ind ++ format_dict_for_text rest ind

/-- The lines of one list element: dict elements get a `N.` line and
recurse at `indent+2`, any other element prints inline after `N.`. -/
def fmtItem : PyVal → Nat → Nat → List String
  | .dict es, ind, i =>
    (indentStr ind ++ "  " ++ toString i ++ ".") :: format_dict_for_text es (ind + 2)
  | it, ind, i => [indentStr ind ++ "  " ++ toString i ++ ". " ++ pyStr it]

/-- The `for i, item in enumerate(value, 1)` loop of
`_format_dict_for_text` (`ind` is the enclosing indent level, `i` the
1-based element counter). -/
def formatListItems : List PyVal → Nat → Nat → List String
  | [], _, _ => []
  | it :: rest, ind, i => fmtItem it ind i ++ formatListItems rest ind (i + 1)
end

/-- The list of lines `_generate_text` joins with newlines: fixed
banner, generation timestamp, prompt, the `EXTRACTED DATA:` divider,
then the recursive formatting of the data dict. -/
def generate_text_lines (data : List (String × PyVal)) (prompt timestamp : String) :
    List String :=
  [String.mk (List.replicate 50 (Char.ofNat 61)),
   "WEB SCRAPING RESULTS",
   String.mk (List.replicate 50 (Char.ofNat 61)),
   "",
   "Generated: " ++ timestamp,
   "Prompt: " ++ prompt,
   "",
   "EXTRACTED DATA:",
   String.mk (List.replicate 20 (Char.ofNat 45)),
   ""]
  ++ format_dict_for_text data 0

/-- One worksheet cell placed by `_generate_excel` /
`_add_dict_to_excel` (row and column are 1-based; every value the
service writes is a string). -/
structure Cell where
  row : Nat
  col : Nat
  value : String
deriving Repr, DecidableEq

/-- The header cells `ws.cell(row=current_row, column=col, value=header)`
for `col, header in enumerate(headers, 1)`. -/
def excelHeaderCells (headers : List String) (r : Nat) : List Cell :=
  headers.enum.map fun p => Cell.mk r (p.1 + 1) p.2

/-- The data cells of one table row:
`ws.cell(row=current_row, column=col, value=str(item.get(header, '')))`. -/
def excelRowCells (headers : List String) (item : PyVal) (r : Nat) : List Cell :=
  headers.enum.map fun p => Cell.mk r (p.1 + 1) (pyStr (itemGet item p.2))

/-- All data rows of a table, one worksheet row per element starting at
`r`. -/
def excelDataCells (headers : List String) (items : List PyVal) (r : Nat) : List Cell :=
  items.enum.flatMap fun p => excelRowCells headers p.2 (r + p.1)

/-- The body of `_add_dict_to_excel` for a single `(key, value)` entry,
starting at worksheet row `r`: returns the cells written and the next
free row.  A TableCandidate value gets a title row, a header row, one
row per element and a blank row; a non-empty list of non-dicts gets a
title row, one row per element and a blank row; anything else (scalars,
empty lists, dicts, `None`) gets a two-column `key.title() / str(value)`
row. -/
def excelEntry (key : String) (value : PyVal) (r : Nat) : List Cell × Nat :=
  match value with
  | .list items =>
    if items.length > 0 then
      if items.all isDict then
        match items with
        | [] => ([], r)
        | e :: _ =>
          let headers := pyKeys e
          (Cell.mk r 1 (pyTitle key)
             :: (excelHeaderCells headers (r + 1) ++ excelDataCells headers items (r + 2)),
           r + 2 + items.length + 1)
      else
        (Cell.mk r 1 (pyTitle key)
           :: items.enum.map (fun p => Cell.mk (r + 1 + p.1) 1 (pyStr p.2)),
         r + 1 + items.length + 1)
    else
      ([Cell.mk r 1 (pyTitle key), Cell.mk r 2 (pyStr value)], r + 1)
  | _ => ([Cell.mk r 1 (pyTitle key), Cell.mk r 2 (pyStr value)], r + 1)

/-- `OutputService._add_dict_to_excel`: fold `excelEntry` over the dict
entries in order, threading the row cursor; returns all cells written
and the final cursor. -/
def add_dict_to_excel : List (String × PyVal) → Nat → List Cell × Nat
  | [], r => ([], r)
  | (k, v) :: rest, r =>
    let p := excelEntry k v r
    let q := add_dict_to_excel rest p.2
    (p.1 ++ q.1, q.2)

/-- The cells `_generate_excel` places: the fixed metadata block
(title at A1, `Generated:`/timestamp at row 3, `Prompt:`/prompt at
row 4) followed by the data cells starting at row 6. -/
def generate_excel_cells (data : List (String × PyVal)) (prompt timestamp : String) :
    List Cell :=
  [Cell.mk 1 1 "Web Scraping Results",
   Cell.mk 3 1 "Generated:", Cell.mk 3 2 timestamp,
   Cell.mk 4 1 "Prompt:", Cell.mk 4 2 prompt]
  ++ (add_dict_to_excel data 6).1

/-- `ws.min_row`: smallest row index among placed cells (1 on an empty
sheet, matching openpyxl). -/
def minRow : List Cell → Nat
  | [] => 1
  | c :: rest => rest.foldl (fun a d => min a d.row) c.row

/-- `ws.max_row`: largest row index among placed cells. -/
def maxRow : List Cell → Nat
  | [] => 1
  | c :: rest => rest.foldl (fun a d => max a d.row) c.row

/-- `ws.min_column`. -/
def minCol : List Cell → Nat
  | [] => 1
  | c :: rest => rest.foldl (fun a d => min a d.col) c.col

/-- `ws.max_column`. -/
def maxCol : List Cell → Nat
  | [] => 1
  | c :: rest => rest.foldl (fun a d => max a d.col) c.col

/-- The value at a grid position, if a cell was placed there (cell
assignment in openpyxl keeps one value per position; the generator
never writes a position twice). -/
def cellValueAt (cells : List Cell) (r c : Nat) : Option String :=
  (cells.find? fun cl => cl.row == r && cl.col == c).map Cell.value

/-- `str(cell.value)` as the width pass sees it: iterating `ws.columns`
yields every position of the used range, and an unplaced position holds
`None`, which stringifies to `"None"`. -/
def strOfCellAt (cells : List Cell) (r c : Nat) : String :=
  match cellValueAt cells r c with
  | some s => s
  | Option.none => "None"

/-- The `max_length` loop of `_generate_excel`'s width pass for column
`c`: the longest `str(cell.value)` over the used range's rows. -/
def colMaxLen (cells : List Cell) (c : Nat) : Nat :=
  (List.range (maxRow cells + 1 - minRow cells)).foldl
    (fun m i => max m (strOfCellAt cells (minRow cells + i) c).length) 0

/-- `adjusted_width = min(max_length + 2, 50)`. -/
def adjustedWidth (cells : List Cell) (c : Nat) : Nat :=
  min (colMaxLen cells c + 2) 50

/-- The width pass of `_generate_excel`: one `(column, width)` pair per
column of the used range. -/
def columnWidths (cells : List Cell) : List (Nat × Nat) :=
  (List.range (maxCol cells + 1 - minCol cells)).map
    fun j => (minCol cells + j, adjustedWidth cells (minCol cells + j))

/-- `OutputService.generate_output`: dispatch on the format string in
source order (`word`, `pdf`, `excel`, `text`); recognized formats
produce a file `scrape_result_<timestamp>_<uid>.<ext>` appended to the
output directory, any other format raises
`ValueError(f"Unsupported format: ...")` and writes nothing.  The
directory is modelled as the list of filenames it holds. -/
def generate_output (format_type timestamp uid : String) (dir : List String) :
    Except String String × List String :=
  if format_type == "word" then
    let fn := "scrape_result_" ++ timestamp ++ "_" ++ uid ++ ".docx"
    (.ok fn, dir ++ [fn])
  else if format_type == "pdf" then
    let fn := "scrape_result_" ++ timestamp ++ "_" ++ uid ++ ".pdf"
    (.ok fn, dir ++ [fn])
  else if format_type == "excel" then
    let fn := "scrape_result_" ++ timestamp ++ "_" ++ uid ++ ".xlsx"
    (.ok fn, dir ++ [fn])
  else if format_type == "text" then
    let fn := "scrape_result_" ++ timestamp ++ "_" ++ uid ++ ".txt"
    (.ok fn, dir ++ [fn])
  else
    (.error ("Unsupported format: " ++ format_type), dir)

/-- A file of the output directory as the cleanup sweep sees it:
name and modification time (seconds). -/
structure FileEntry where
  name : String
  mtime : Int
deriving Repr, DecidableEq

/-- The `for file_path in self.output_dir.glob("*")` loop of
`cleanup_old_files` at current time `now`: delete every file whose age
exceeds `days * 24 * 3600` seconds.  `fail` is the failure oracle: if
deleting a file raises (e.g. permission denied), the loop stops there —
that file and all unprocessed files survive — and the error is the
second component. -/
def sweepBody (now : Int) (days : Int) (fail : String → Bool) :
    List FileEntry → List FileEntry × Option String
  | [] => ([], Option.none)
  | f :: rest =>
    if now - f.mtime > days * 24 * 3600 then
      if fail f.name then
        (f :: rest, some ("PermissionError: " ++ f.name))
      else
        sweepBody now days fail rest
    else
      let p := sweepBody now days fail rest
      (f :: p.1, p.2)

/-- `OutputService.cleanup_old_files`: the sweep body runs inside
`try/except Exception`, so a raised error is logged and swallowed and
the call returns normally with whatever directory state the interrupted
sweep left behind. -/
def cleanup_old_files (now : Int) (days : Int) (fail : String → Bool)
    (dir : List FileEntry) : Except String (List FileEntry) :=
  match sweepBody now days fail dir with
  | (st, _) => Except.ok st

/-- The `media_type_map` literal of the `/download/{filename}` endpoint. -/
def media_type_map : List (String × String) :=
  [(".docx", "application/vnd.openxmlformats-officedocument.wordprocessingml.document"),
   (".pdf", "application/pdf"),
   (".xlsx", "application/vnd.openxmlformats-officedocument.spreadsheetml.sheet"),
   (".txt", "text/plain")]

/-- `media_type_map.get(key, 'application/octet-stream')`. -/
def mediaTypeGet (ext : String) : String :=
  match media_type_map.find? (fun kv => kv.1 == ext) with
  | some kv => kv.2
  | Option.none => "application/octet-stream"

/-- `PurePath(filename).suffix`: the substring from the last dot,
provided that dot is neither the first nor the last character;
otherwise the empty string. -/
def pathSuffix (filename : String) : String :=
  let cs := filename.data
  match ((cs.enum.filter fun p => p.2 == Char.ofNat 46).map Prod.fst).getLast? with
  | some i => if 0 < i ∧ i < cs.length - 1 then String.mk (cs.drop i) else ""
  | Option.none => ""

/-- The media-type selection of `download_file`:
`media_type_map.get(filepath.suffix.lower(), 'application/octet-stream')`. -/
def download_media_type (filename : String) : String :=
  mediaTypeGet (pathSuffix filename).toLower

/-- True for the values that the text renderer's final branch handles:
neither a dict nor a list (strings, ints, booleans, `None`). -/
def isScalarLike : PyVal → Bool
  | .dict _ => false
  | .list _ => false
  | _ => true

/-- Spec-side reading of §4.5's width rule: the length of the longest
stringified value among the cells actually placed in column `c`. -/
def placedColMaxLen (cells : List Cell) (c : Nat) : Nat :=
  ((cells.filter fun cl => cl.col == c).map fun cl => cl.value.length).foldr max 0

/-- Spec-side description of what the width pass measures: the longest
`str(cell.value)` over the used range's rows of column `c`, where an
unplaced position stringifies as `"None"`. -/
def rectColMaxLen (cells : List Cell) (c : Nat) : Nat :=
  ((List.range' (minRow cells) (maxRow cells + 1 - minRow cells)).map
    fun r => (strOfCellAt cells r c).length).foldr max 0

/-- A concrete worksheet: the cells `_generate_excel` places for the
data `{"name": "Alice"}` with prompt `Extract`. -/
def c9sheet : List Cell :=
  generate_excel_cells [("name", .str "Alice")] "Extract" "2025-01-01 00:00:00"

/-! ### Helper lemmas -/

theorem foldl_max_map (g : Nat → Nat) (l : List Nat) (a : Nat) :
    l.foldl (fun m i => max m (g i)) a = max a ((l.map g).foldr max 0) := by
  induction l generalizing a with
  | nil => simp
  | cons i l ih =>
    rw [List.foldl_cons, ih, List.map_cons, List.foldr_cons, Nat.max_assoc]

theorem le_foldr_max {x : Nat} {l : List Nat} (h : x ∈ l) : x ≤ l.foldr max 0 := by
  induction l with
  | nil => cases h
  | cons y l ih =>
    rcases List.mem_cons.mp h with rfl | h2
    · exact Nat.le_max_left _ _
    · exact le_trans (ih h2) (Nat.le_max_right _ _)

theorem foldl_min_le_init (f : Cell → Nat) (l : List Cell) (a : Nat) :
    l.foldl (fun m d => min m (f d)) a ≤ a := by
  induction l generalizing a with
  | nil => exact le_refl a
  | cons d l ih => exact le_trans (ih _) (Nat.min_le_left _ _)

theorem foldl_min_le_mem (f : Cell → Nat) {d : Cell} :
    ∀ (l : List Cell) (a : Nat), d ∈ l → l.foldl (fun m x => min m (f x)) a ≤ f d := by
  intro l
  induction l with
  | nil => intro a h; cases h
  | cons x l ih =>
    intro a h
    rcases List.mem_cons.mp h with rfl | h2
    · exact le_trans (foldl_min_le_init f l _) (Nat.min_le_right _ _)
    · exact ih _ h2

theorem init_le_foldl_max (f : Cell → Nat) (l : List Cell) (a : Nat) :
    a ≤ l.foldl (fun m d => max m (f d)) a := by
  induction l generalizing a with
  | nil => exact le_refl a
  | cons d l ih => exact le_trans (Nat.le_max_left _ _) (ih _)

theorem mem_le_foldl_max (f : Cell → Nat) {d : Cell} :
    ∀ (l : List Cell) (a : Nat), d ∈ l → f d ≤ l.foldl (fun m x => max m (f x)) a := by
  intro l
  induction l with
  | nil => intro a h; cases h
  | cons x l ih =>
    intro a h
    rcases List.mem_cons.mp h with rfl | h2
    · exact le_trans (Nat.le_max_right _ _) (init_le_foldl_max f l _)
    · exact ih _ h2

theorem minRow_le_of_mem {cells : List Cell} {cl : Cell} (h : cl ∈ cells) :
    minRow cells ≤ cl.row := by
  cases cells with
  | nil => cases h
  | cons c rest =>
    rcases List.mem_cons.mp h with rfl | h2
    · exact foldl_min_le_init (fun d => d.row) rest cl.row
    · exact foldl_min_le_mem (fun d => d.row) rest c.row h2

theorem row_le_maxRow_of_mem {cells : List Cell} {cl : Cell} (h : cl ∈ cells) :
    cl.row ≤ maxRow cells := by
  cases cells with
  | nil => cases h
  | cons c rest =>
    rcases List.mem_cons.mp h with rfl | h2
    · exact init_le_foldl_max (fun d => d.row) rest cl.row
    · exact mem_le_foldl_max (fun d => d.row) rest c.row h2

theorem cellValueAt_of_mem {cells : List Cell} {cl : Cell}
    (hnd : cells.Pairwise fun a b => (a.row, a.col) ≠ (b.row, b.col))
    (h : cl ∈ cells) : cellValueAt cells cl.row cl.col = some cl.value := by
  induction cells with
  | nil => cases h
  | cons a rest ih =>
    rw [List.pairwise_cons] at hnd
    rcases List.mem_cons.mp h with rfl | h2
    · simp [cellValueAt, List.find?_cons]
    · have hne := hnd.1 cl h2
      have hpa : (a.row == cl.row && a.col == cl.col) = false := by
        by_contra hc
        rw [Bool.not_eq_false, Bool.and_eq_true, beq_iff_eq, beq_iff_eq] at hc
        exact hne (by rw [hc.1, hc.2])
      have := ih hnd.2 h2
      simpa [cellValueAt, List.find?_cons, hpa] using this

theorem dict_to_table_data_find {data : List (String × PyVal)} {k : String} {v : PyVal}
    (h : data.find? (fun kv => isTableList kv.2) = some (k, v)) :
    dict_to_table_data data = dict_to_table_data [(k, v)] := by
  induction data with
  | nil => simp at h
  | cons a rest ih =>
    obtain ⟨ka, va⟩ := a
    rw [List.find?_cons] at h
    by_cases hp : isTableList va = true
    · simp only [hp] at h
      obtain ⟨rfl, rfl⟩ : ka = k ∧ va = v := by
        have := Option.some.inj h
        exact ⟨congrArg Prod.fst this, congrArg Prod.snd this⟩
      simp [dict_to_table_data, hp]
    · rw [Bool.not_eq_true] at hp
      simp only [hp] at h
      simp only [dict_to_table_data, hp, if_false, Bool.false_eq_true]
      exact ih h

theorem add_dict_to_excel_append (xs ys : List (String × PyVal)) (r : Nat) :
    add_dict_to_excel (xs ++ ys) r =
      ((add_dict_to_excel xs r).1
         ++ (add_dict_to_excel ys (add_dict_to_excel xs r).2).1,
       (add_dict_to_excel ys (add_dict_to_excel xs r).2).2) := by
  induction xs generalizing r with
  | nil => simp [add_dict_to_excel]
  | cons a xs ih =>
    obtain ⟨k, v⟩ := a
    simp [add_dict_to_excel, ih, List.append_assoc]

theorem mem_format_dict_scalar {data : List (String × PyVal)} {k : String} {v : PyVal}
    (hkv : (k, v) ∈ data) (hs : isScalarLike v = true) (ind : Nat) :
    (indentStr ind ++ k ++ ": " ++ pyStr v) ∈ format_dict_for_text data ind := by
  induction data with
  | nil => cases hkv
  | cons a rest ih =>
    obtain ⟨k0, v0⟩ := a
    rcases List.mem_cons.mp hkv with heq | h2
    · injection heq with hk hv
      subst hk
      subst hv
      cases v with
      | dict es => simp [isScalarLike] at hs
      | list items => simp [isScalarLike] at hs
      | str s => exact List.mem_append_left _ (List.Mem.head _)
      | int n => exact List.mem_append_left _ (List.Mem.head _)
      | bool b => exact List.mem_append_left _ (List.Mem.head _)
      | none => exact List.mem_append_left _ (List.Mem.head _)
    · exact List.mem_append_right _ (ih h2)

theorem mem_format_dict_label {data : List (String × PyVal)} {k : String} {v : PyVal}
    (hkv : (k, v) ∈ data) (hs : isScalarLike v = false) (ind : Nat) :
    (indentStr ind ++ k.toUpper ++ ":") ∈ format_dict_for_text data ind := by
  induction data with
  | nil => cases hkv
  | cons a rest ih =>
    obtain ⟨k0, v0⟩ := a
    rcases List.mem_cons.mp hkv with heq | h2
    · injection heq with hk hv
      subst hk
      subst hv
      cases v with
      | dict es => exact List.mem_append_left _ (List.Mem.head _)
      | list items => exact List.mem_append_left _ (List.Mem.head _)
      | str s => simp [isScalarLike] at hs
      | int n => simp [isScalarLike] at hs
      | bool b => simp [isScalarLike] at hs
      | none => simp [isScalarLike] at hs
    · exact List.mem_append_right _ (ih h2)

theorem colMaxLen_eq_rect (cells : List Cell) (c : Nat) :
    colMaxLen cells c = rectColMaxLen cells c := by
  rw [colMaxLen, rectColMaxLen, List.range'_eq_map_range, List.map_map, foldl_max_map]
  simp [Function.comp_def]

/-! ### Claim theorems -/

/-- C4: for every format value outside the set `{text, word, pdf,
excel}`, `generate_output` raises the unsupported-format error
(`ValueError("Unsupported format: ...")`) and writes no output file:
the output directory is returned unchanged. -/
theorem c4_unsupported_format_raises_writes_nothing
    (format_type timestamp uid : String) (dir : List String)
    (hw : format_type ≠ "word") (hp : format_type ≠ "pdf")
    (he : format_type ≠ "excel") (ht : format_type ≠ "text") :
    generate_output format_type timestamp uid dir =
      (Except.error ("Unsupported format: " ++ format_type), dir) := by
  simp [generate_output, hw, hp, he, ht]

/-- Witness for C4 at the concrete format `"html"`. -/
theorem c4_unsupported_format_witness :
    generate_output "html" "20250101_000000" "deadbeef" ["keep.txt"] =
      (Except.error "Unsupported format: html", ["keep.txt"]) :=
  c4_unsupported_format_raises_writes_nothing "html" "20250101_000000" "deadbeef"
    ["keep.txt"] (by decide) (by decide) (by decide) (by decide)

/-- C5: when the mapping's first TableCandidate (in iteration order) is
the entry `(k, v)`, the fixed-layout renderer's tabular path builds the
same grid as it would from the mapping containing only that entry: every
other key of the mapping contributes nothing. -/
theorem c5_first_table_candidate_only
    (data : List (String × PyVal)) (k : String) (v : PyVal)
    (h : data.find? (fun kv => isTableList kv.2) = some (k, v)) :
    dict_to_table_data data = dict_to_table_data [(k, v)] :=
  dict_to_table_data_find h

/-- Witness for C5: with two TableCandidates present, the grid comes
from the first alone and the second is dropped. -/
theorem c5_first_table_candidate_witness :
    dict_to_table_data
        [("first", .list [.dict [("a", .int 1)]]),
         ("second", .list [.dict [("b", .int 2)]])] =
      dict_to_table_data [("first", .list [.dict [("a", .int 1)]])]
    ∧ dict_to_table_data
        [("first", .list [.dict [("a", .int 1)]]),
         ("second", .list [.dict [("b", .int 2)]])] = [["a"], ["1"]] := by
  have h := c5_first_table_candidate_only
    [("first", .list [.dict [("a", .int 1)]]),
     ("second", .list [.dict [("b", .int 2)]])]
    "first" (.list [.dict [("a", .int 1)]]) rfl
  exact ⟨h, by rw [h]; rfl⟩

/-- C6: with no deletion failures, a sweep at time `now` with retention
`days` keeps exactly the files whose age is at most `days * 86400`
seconds (in their original order, untouched) and deletes exactly those
strictly older. -/
theorem c6_sweep_deletes_exactly_expired (now days : Int) (dir : List FileEntry) :
    cleanup_old_files now days (fun _ => false) dir =
      Except.ok (dir.filter fun f => now - f.mtime ≤ days * 86400) := by
  have hb : sweepBody now days (fun _ => false) dir =
      (dir.filter fun f => now - f.mtime ≤ days * 86400, Option.none) := by
    induction dir with
    | nil => rfl
    | cons f rest ih =>
      have h86 : days * 24 * 3600 = days * 86400 := by ring
      simp only [sweepBody, List.filter_cons]
      by_cases hage : now - f.mtime > days * 24 * 3600
      · have hfd : decide (now - f.mtime ≤ days * 86400) = false := by
          rw [decide_eq_false_iff_not, ← h86]
          exact not_le.mpr hage
        rw [if_pos hage, hfd, if_neg Bool.false_ne_true]
        exact ih
      · have hfk : decide (now - f.mtime ≤ days * 86400) = true := by
          rw [decide_eq_true_eq, ← h86]
          exact le_of_not_lt hage
        rw [if_neg hage, hfk, if_pos rfl, ih]
  simp [cleanup_old_files, hb]

/-- C7: `cleanup_old_files` never propagates an exception: for every
time, retention, directory state and deletion-failure pattern it
returns normally (the body's error is logged and swallowed).  The last
two conjuncts exhibit a state where the sweep body does raise — the
file is expired and unlinking it fails — and the call still returns
normally, leaving the file in place. -/
theorem c7_cleanup_never_raises :
    (∀ (now days : Int) (fail : String → Bool) (dir : List FileEntry),
        ∃ st, cleanup_old_files now days fail dir = Except.ok st)
    ∧ (sweepBody 700000 1 (fun _ => true) [⟨"stale.txt", 0⟩]).2.isSome = true
    ∧ cleanup_old_files 700000 1 (fun _ => true) [⟨"stale.txt", 0⟩] =
        Except.ok [⟨"stale.txt", 0⟩] := by
  refine ⟨fun now days fail dir => ⟨(sweepBody now days fail dir).1, rfl⟩, rfl, rfl⟩

/-- C1: when the mapping's first TableCandidate is `(k, e :: tl)`, the
fixed-layout (PDF) renderer's grid and the grid (Excel) renderer's
cells for that entry both have a header row that is exactly the list of
keys of the first element `e`, in original order, followed by one row
per element holding the stringified value for each header key. -/
theorem c1_grid_header_and_rows
    (data : List (String × PyVal)) (k : String) (e : PyVal) (tl : List PyVal) (r : Nat)
    (h : data.find? (fun kv => isTableList kv.2) = some (k, PyVal.list (e :: tl))) :
    dict_to_table_data data =
      pyKeys e :: (e :: tl).map (fun it => (pyKeys e).map fun hd => pyStr (itemGet it hd))
    ∧ (excelEntry k (PyVal.list (e :: tl)) r).1 =
        Cell.mk r 1 (pyTitle k)
          :: ((pyKeys e).enum.map (fun p => Cell.mk (r + 1) (p.1 + 1) p.2)
              ++ (e :: tl).enum.flatMap fun q =>
                   (pyKeys e).enum.map fun p =>
                     Cell.mk (r + 2 + q.1) (p.1 + 1) (pyStr (itemGet q.2 p.2))) := by
  have htl : isTableList (PyVal.list (e :: tl)) = true :=
    @List.find?_some _ (fun kv => isTableList kv.2) (k, PyVal.list (e :: tl)) data h
  have hall : (e :: tl).all isDict = true := by
    simpa [isTableList] using htl
  constructor
  · rw [dict_to_table_data_find h]
    simp [dict_to_table_data, htl, tableGridOf, rowOf]
  · have hlen : (e :: tl).length > 0 := Nat.succ_pos tl.length
    rw [excelEntry, if_pos hlen, hall, if_pos rfl]
    simp [excelHeaderCells, excelDataCells, excelRowCells]

/-- Witness for C1 at the spec's scenario
`{"items":[{"name":"A","price":1},{"name":"B","price":2}]}` (preceded
by a non-tabular key): header row `["name","price"]`, data rows
`["A","1"]` and `["B","2"]`, and the matching Excel cells at rows 6-9. -/
theorem c1_grid_header_and_rows_witness :
    dict_to_table_data
        [("url", .str "https://example.com"),
         ("items", .list [.dict [("name", .str "A"), ("price", .int 1)],
                          .dict [("name", .str "B"), ("price", .int 2)]])] =
      [["name", "price"], ["A", "1"], ["B", "2"]]
    ∧ (excelEntry "items"
         (PyVal.list [.dict [("name", .str "A"), ("price", .int 1)],
                      .dict [("name", .str "B"), ("price", .int 2)]]) 6).1 =
        [Cell.mk 6 1 "Items",
         Cell.mk 7 1 "name", Cell.mk 7 2 "price",
         Cell.mk 8 1 "A", Cell.mk 8 2 "1",
         Cell.mk 9 1 "B", Cell.mk 9 2 "2"] := by
  have h := c1_grid_header_and_rows
    [("url", .str "https://example.com"),
     ("items", .list [.dict [("name", .str "A"), ("price", .int 1)],
                      .dict [("name", .str "B"), ("price", .int 2)]])]
    "items" (.dict [("name", .str "A"), ("price", .int 1)])
    [.dict [("name", .str "B"), ("price", .int 2)]] 6 rfl
  exact ⟨by rw [h.1]; rfl, by rw [h.2]; rfl⟩

/-- C2: a TableCandidate element that lacks one of the header keys
renders that cell as the empty string in both renderers — the PDF table
row holds `""` at the missing header's position, and the Excel data row
contains the cell `("")` at the corresponding column; the (total)
render functions succeed. -/
theorem c2_missing_key_renders_empty
    (headers : List String) (es : List (String × PyVal)) (hd : String) (i r : Nat)
    (hh : headers[i]? = some hd)
    (hmiss : es.find? (fun kv => kv.1 == hd) = Option.none) :
    (rowOf headers (PyVal.dict es))[i]? = some ""
    ∧ Cell.mk r (i + 1) "" ∈ excelRowCells headers (PyVal.dict es) r := by
  have hval : pyStr (itemGet (PyVal.dict es) hd) = "" := by
    simp [itemGet, hmiss, pyStr]
  constructor
  · simp [rowOf, List.getElem?_map, hh, hval]
  · have hmem : (i, hd) ∈ headers.enum := List.mem_enum_iff_getElem?.mpr hh
    have h2 : Cell.mk r (i + 1) (pyStr (itemGet (PyVal.dict es) hd))
        ∈ excelRowCells headers (PyVal.dict es) r :=
      List.mem_map.mpr ⟨(i, hd), hmem, rfl⟩
    rwa [hval] at h2

/-- Witness for C2: the second element `{"name": "B"}` lacks the header
key `"price"`; its row renders `["B", ""]` and the Excel cell at
column 2 is empty. -/
theorem c2_missing_key_renders_empty_witness :
    (rowOf ["name", "price"] (PyVal.dict [("name", .str "B")]))[1]? = some ""
    ∧ Cell.mk 8 2 "" ∈ excelRowCells ["name", "price"] (PyVal.dict [("name", .str "B")]) 8 :=
  c2_missing_key_renders_empty ["name", "price"] [("name", .str "B")] "price" 1 8 rfl rfl

/-- C3 counterexample: the claim asserts the text renderer uppercases
every key, so rendering `{"title": "Test Page", "content": "Test
content"}` would contain the line `TITLE: Test Page`; it does not —
scalar-valued keys keep their original case. -/
theorem c3_uppercase_claim_counterexample :
    "TITLE: Test Page" ∉
      generate_text_lines [("title", .str "Test Page"), ("content", .str "Test content")]
        "Extract the title" "2025-01-01 00:00:00" := by
  decide

/-- C3 (amended): the text renderer uppercases a key only when its
value is a mapping or a sequence; a key with a scalar value is written
unchanged as `key: value`.  In particular the scenario input yields
`title: Test Page` and `content: Test content` under the
`EXTRACTED DATA:` banner. -/
theorem c3_text_key_casing
    (data : List (String × PyVal)) (prompt timestamp : String) (k : String) (v : PyVal)
    (hkv : (k, v) ∈ data) :
    "EXTRACTED DATA:" ∈ generate_text_lines data prompt timestamp
    ∧ (isScalarLike v = true →
        (k ++ ": " ++ pyStr v) ∈ generate_text_lines data prompt timestamp)
    ∧ (isScalarLike v = false →
        (k.toUpper ++ ":") ∈ generate_text_lines data prompt timestamp) := by
  refine ⟨by simp [generate_text_lines], fun hs => ?_, fun hs => ?_⟩
  · have h := mem_format_dict_scalar hkv hs 0
    have h0 : indentStr 0 ++ k ++ ": " ++ pyStr v = k ++ ": " ++ pyStr v := rfl
    rw [h0] at h
    exact List.mem_append_right _ h
  · have h := mem_format_dict_label hkv hs 0
    have h0 : indentStr 0 ++ k.toUpper ++ ":" = k.toUpper ++ ":" := rfl
    rw [h0] at h
    exact List.mem_append_right _ h

/-- Witness for C3 (amended) at the scenario input: the scalar-valued
key `title` renders as `title: Test Page`. -/
theorem c3_text_key_casing_witness :
    "title: Test Page" ∈
      generate_text_lines [("title", .str "Test Page"), ("content", .str "Test content")]
        "Extract the title" "2025-01-01 00:00:00" := by
  have h := (c3_text_key_casing
    [("title", .str "Test Page"), ("content", .str "Test content")]
    "Extract the title" "2025-01-01 00:00:00" "title" (.str "Test Page")
    (List.Mem.head _)).2.1 rfl
  exact h

/-- C8: the download path selects the MIME type from the filename
extension alone — equal suffixes give equal MIME types — and the fixed
table maps `.docx`, `.pdf`, `.xlsx`, `.txt` to their Office/PDF/plain
types and every other extension to `application/octet-stream`. -/
theorem c8_download_media_type_table (ext f g : String)
    (hne : ext ∉ [".docx", ".pdf", ".xlsx", ".txt"])
    (hfg : pathSuffix f = pathSuffix g) :
    mediaTypeGet ".docx" =
      "application/vnd.openxmlformats-officedocument.wordprocessingml.document"
    ∧ mediaTypeGet ".pdf" = "application/pdf"
    ∧ mediaTypeGet ".xlsx" =
      "application/vnd.openxmlformats-officedocument.spreadsheetml.sheet"
    ∧ mediaTypeGet ".txt" = "text/plain"
    ∧ mediaTypeGet ext = "application/octet-stream"
    ∧ download_media_type f = download_media_type g
    ∧ (∀ s, download_media_type s = mediaTypeGet (pathSuffix s).toLower) := by
  refine ⟨rfl, rfl, rfl, rfl, ?_, ?_, fun s => rfl⟩
  · simp only [List.mem_cons, not_or] at hne
    obtain ⟨h1, h2, h3, h4, _⟩ := hne
    have e1 : (".docx" == ext) = false := beq_eq_false_iff_ne.mpr (Ne.symm h1)
    have e2 : (".pdf" == ext) = false := beq_eq_false_iff_ne.mpr (Ne.symm h2)
    have e3 : (".xlsx" == ext) = false := beq_eq_false_iff_ne.mpr (Ne.symm h3)
    have e4 : (".txt" == ext) = false := beq_eq_false_iff_ne.mpr (Ne.symm h4)
    simp [mediaTypeGet, media_type_map, List.find?, e1, e2, e3, e4]
  · simp only [download_media_type, hfg]

/-- Witness for C8 with the unrecognized extension `.html` and two
filenames sharing the suffix `.json`. -/
theorem c8_download_media_type_witness :
    mediaTypeGet ".docx" =
      "application/vnd.openxmlformats-officedocument.wordprocessingml.document"
    ∧ mediaTypeGet ".pdf" = "application/pdf"
    ∧ mediaTypeGet ".xlsx" =
      "application/vnd.openxmlformats-officedocument.spreadsheetml.sheet"
    ∧ mediaTypeGet ".txt" = "text/plain"
    ∧ mediaTypeGet ".html" = "application/octet-stream"
    ∧ download_media_type "a.json" = download_media_type "b.json"
    ∧ (∀ s, download_media_type s = mediaTypeGet (pathSuffix s).toLower) :=
  c8_download_media_type_table ".html" "a.json" "b.json" (by decide) (by decide)

/-- C9 counterexample: in the sheet generated for `{"name": "Alice"}`,
column A's longest stringified placed value is `Web Scraping Results`
(20 characters) but the width pass sets the column width to 22, not
`min 20 50` — the code pads `max_length` by 2 before capping at 50. -/
theorem c9_width_claim_counterexample :
    adjustedWidth c9sheet 1 = 22
    ∧ placedColMaxLen c9sheet 1 = 20
    ∧ adjustedWidth c9sheet 1 ≠ min (placedColMaxLen c9sheet 1) 50 := by
  refine ⟨by decide, by decide, by decide⟩

/-- C9 (amended): every column's width equals the length of the longest
stringified cell value in that column *plus 2*, capped at 50, where the
maximum ranges over all grid positions of the used range (an unplaced
position stringifies as `"None"`); every placed cell's value length is
bounded by that maximum. -/
theorem c9_column_width_padded_cap
    (cells : List Cell) (c w : Nat)
    (hpw : (c, w) ∈ columnWidths cells)
    (hnd : cells.Pairwise fun a b => (a.row, a.col) ≠ (b.row, b.col)) :
    w = min (rectColMaxLen cells c + 2) 50
    ∧ ∀ cl ∈ cells, cl.col = c → cl.value.length ≤ rectColMaxLen cells c := by
  constructor
  · simp only [columnWidths] at hpw
    obtain ⟨j, hj, hpair⟩ := List.mem_map.mp hpw
    injection hpair with hc hw
    subst hc
    subst hw
    rw [adjustedWidth, colMaxLen_eq_rect]
  · intro cl hcl hcol
    have h1 : minRow cells ≤ cl.row := minRow_le_of_mem hcl
    have h2 : cl.row ≤ maxRow cells := row_le_maxRow_of_mem hcl
    have hvr : strOfCellAt cells cl.row c = cl.value := by
      rw [← hcol, strOfCellAt, cellValueAt_of_mem hnd hcl]
    have hmemr : cl.row ∈ List.range' (minRow cells) (maxRow cells + 1 - minRow cells) := by
      rw [List.mem_range']
      exact ⟨cl.row - minRow cells, by omega, by omega⟩
    have hlen : (strOfCellAt cells cl.row c).length ∈
        (List.range' (minRow cells) (maxRow cells + 1 - minRow cells)).map
          (fun rr => (strOfCellAt cells rr c).length) :=
      List.mem_map_of_mem _ hmemr
    calc cl.value.length = (strOfCellAt cells cl.row c).length := by rw [hvr]
      _ ≤ rectColMaxLen cells c := le_foldr_max hlen

/-- Witness for C9 (amended) on the concrete sheet for
`{"name": "Alice"}`: column A's width 22 is `min (20 + 2) 50`. -/
theorem c9_column_width_padded_cap_witness :
    (22 = min (rectColMaxLen c9sheet 1 + 2) 50)
    ∧ ∀ cl ∈ c9sheet, cl.col = 1 → cl.value.length ≤ rectColMaxLen c9sheet 1 :=
  c9_column_width_padded_cap c9sheet 1 22 (by decide) (by decide)

/-- C10: a mapping key whose value is itself a mapping produces exactly
one two-column row in the spreadsheet renderer — title-cased key in
column A, `str(value)` of the whole nested mapping in column B — and
the renderer does not recurse into it: no cell of the output comes from
the nested mapping's own entries. -/
theorem c10_nested_dict_single_row
    (data pre post : List (String × PyVal)) (k : String)
    (inner : List (String × PyVal)) (r : Nat)
    (hdata : data = pre ++ (k, PyVal.dict inner) :: post) :
    (add_dict_to_excel data r).1 =
      (add_dict_to_excel pre r).1
      ++ ([Cell.mk (add_dict_to_excel pre r).2 1 (pyTitle k),
           Cell.mk (add_dict_to_excel pre r).2 2 (pyStr (PyVal.dict inner))]
          ++ (add_dict_to_excel post ((add_dict_to_excel pre r).2 + 1)).1) := by
  subst hdata
  rw [add_dict_to_excel_append]
  simp [add_dict_to_excel, excelEntry]

/-- Witness for C10: between `url` and `count`, the nested mapping
`{"a": 1}` under `meta` yields the single row
`("Meta", str({"a": 1}))` at row 7 and nothing else. -/
theorem c10_nested_dict_single_row_witness :
    (add_dict_to_excel
        [("url", .str "u"), ("meta", .dict [("a", .int 1)]), ("count", .int 5)] 6).1 =
      [Cell.mk 6 1 "Url", Cell.mk 6 2 "u"]
      ++ ([Cell.mk 7 1 "Meta", Cell.mk 7 2 (pyStr (PyVal.dict [("a", .int 1)]))]
          ++ [Cell.mk 8 1 "Count", Cell.mk 8 2 "5"]) := by
  have h := c10_nested_dict_single_row
    [("url", .str "u"), ("meta", .dict [("a", .int 1)]), ("count", .int 5)]
    [("url", .str "u")] [("count", .int 5)] "meta" [("a", .int 1)] 6 rfl
  rw [h]
  rfl

end WebScraper
